import Mathlib

/-!
Verification of the Spendwise sync pipeline (backend/services/parser.js,
backend/services/database.js, backend/services/gmail.js enhanced variant,
backend/routes/sync.js) via a shallow embedding in Lean.

JavaScript numbers are modelled as rationals, with an explicit NaN
constructor where the code can produce or test one.  Optional / possibly
`undefined` fields are modelled with `Option`.  External collaborators
(Gmail API, extraction service, Supabase store) are modelled as function
parameters / explicit state, following the interfaces the code uses.
-/

namespace Spendwise

/-- A JavaScript numeric value: either NaN or an actual (rational) number. -/
inductive JsNum where
  | nan : JsNum
  | num : ℚ → JsNum
deriving DecidableEq

/-- JavaScript truthiness of a possibly-undefined numeric value:
`undefined`, `NaN` and `0` are falsy. -/
def jsTruthyNum : Option JsNum → Bool
  | none => false
  | some JsNum.nan => false
  | some (JsNum.num q) => q != 0

/-- JavaScript truthiness of a possibly-undefined string: `undefined` and
the empty string are falsy. -/
def strTruthy : Option String → Bool
  | none => false
  | some s => s != ""

/-- JavaScript `a || b` for a possibly-undefined string `a` and a string
default `b`. -/
def jsOrS (a : Option String) (b : String) : String :=
  if strTruthy a then a.getD "" else b

/-- The static `APPROXIMATE_EXCHANGE_RATES` table of parser.js (rates to
USD).  The decimal rates of the source (0.74, 1.08, 1.27, 0.012, 0.66,
0.0068, 0.14, 0.050, 0.20) are written as rationals in lowest terms,
via the reduced-fraction constructor so that they evaluate inside the
kernel. -/
def APPROXIMATE_EXCHANGE_RATES : List (String × ℚ) :=
  [("USD", 1),
   ("CAD", ⟨37, 50, by norm_num, by norm_num⟩),
   ("EUR", ⟨27, 25, by norm_num, by norm_num⟩),
   ("GBP", ⟨127, 100, by norm_num, by norm_num⟩),
   ("INR", ⟨3, 250, by norm_num, by norm_num⟩),
   ("AUD", ⟨33, 50, by norm_num, by norm_num⟩),
   ("JPY", ⟨17, 2500, by norm_num, by norm_num⟩),
   ("CNY", ⟨7, 50, by norm_num, by norm_num⟩),
   ("MXN", ⟨1, 20, by norm_num, by norm_num⟩),
   ("BRL", ⟨1, 5, by norm_num, by norm_num⟩)]

/-- `APPROXIMATE_EXCHANGE_RATES[c] || 1` — the rate lookup with the
JavaScript `|| 1` fallback (a zero rate would also fall back to 1; the
table contains none). -/
def lookupRate (c : String) : ℚ :=
  match APPROXIMATE_EXCHANGE_RATES.find? (fun p => p.1 == c) with
  | some p => if p.2 = 0 then 1 else p.2
  | none => 1

/-- `Math.round(x * 100) / 100` of parser.js, rounding to two decimals.
JavaScript `Math.round` is `⌊x + 1/2⌋`. -/
def round2 (q : ℚ) : ℚ := ((⌊q * 100 + 1/2⌋ : ℤ) : ℚ) / 100

/-- `convertToCurrency(amount, fromCurrency, toCurrency)` of parser.js on
numeric amounts: identity on same currency, otherwise convert to USD by
`fromRate` and then to the target by `toRate`, rounded to 2 decimals. -/
def convertToCurrency (amount : ℚ) (fromCurrency toCurrency : String) : ℚ :=
  if fromCurrency == toCurrency then amount
  else
    let fromRate := lookupRate fromCurrency
    let toRate := lookupRate toCurrency
    round2 (amount * fromRate / toRate)

/-- A candidate message as produced by the Gmail service:
`{id, from, subject, date, body}`. -/
structure Email where
  id : String
  sender : String
  subject : String
  date : String
  body : String
deriving DecidableEq

/-- A transaction object as it flows through parser.js: the fields the
extraction service is asked to produce, plus the fields added by
post-processing.  Possibly-absent (`undefined`/`null`) fields are
`Option`; amounts are `JsNum` (a JavaScript number, possibly NaN). -/
structure Guess where
  amount : Option JsNum := none
  currency : Option String := none
  merchant : Option String := none
  category : Option String := none
  date : Option String := none
  time : Option String := none
  card_last4 : Option String := none
  account_last4 : Option String := none
  institution : Option String := none
  transaction_type : Option String := none
  description : Option String := none
  location : Option String := none
  confidence : Option ℚ := none
  email_id : Option String := none
  email_subject : Option String := none
  email_date : Option String := none
  original_amount : Option JsNum := none
  original_currency : Option String := none
  display_currency : Option String := none
deriving DecidableEq

/-- Whether the pattern matches at the head of the text (character
lists). -/
def matchesAt : List Char → List Char → Bool
  | [], _ => true
  | _ :: _, [] => false
  | p :: ps, c :: cs => p == c && matchesAt ps cs

/-- JavaScript `text.includes(pat)`: the pattern occurs as a contiguous
substring of the text (structural, so that it evaluates inside the
kernel). -/
def containsSub (text pat : List Char) : Bool :=
  match text with
  | [] => matchesAt pat []
  | _ :: rest => matchesAt pat text || containsSub rest pat

/-- JavaScript `String.prototype.toLowerCase`, structurally. -/
def jsToLower (s : String) : String := ⟨s.data.map Char.toLower⟩

/-- `detectInstitution(from, subject)` of parser.js: lowercase the
concatenation `from + ' ' + subject` and scan a fixed keyword table in
insertion order with `email.includes(key)`. -/
def detectInstitution (sender subject : String) : String :=
  let e := jsToLower (sender ++ " " ++ subject)
  let institutions : List (String × String) :=
    [("cibc", "CIBC"), ("td", "TD"), ("rbc", "RBC"), ("bmo", "BMO"),
     ("scotiabank", "Scotiabank"), ("tangerine", "Tangerine"),
     ("amex", "American Express"), ("american express", "American Express"),
     ("visa", "Visa"), ("mastercard", "Mastercard")]
  match institutions.find? (fun p => containsSub e.data p.1.data) with
  | some p => p.2
  | none => "Unknown"

/-- `convertToCurrency` as applied to a raw (possibly NaN / undefined)
amount field inside `postProcessTransaction`: arithmetic on a missing or
NaN amount yields NaN. -/
def convertAmountJs (a : Option JsNum) (fromCurrency toCurrency : String) : Option JsNum :=
  if fromCurrency == toCurrency then a
  else
    match a with
    | some (JsNum.num q) =>
        some (JsNum.num (round2 (q * lookupRate fromCurrency / lookupRate toCurrency)))
    | _ => some JsNum.nan

/-- Step 1 of `postProcessTransaction`: attach the email metadata. -/
def ppMeta (t : Guess) (email : Email) : Guess :=
  { t with email_id := some email.id, email_subject := some email.subject,
           email_date := some email.date }

/-- Step 2 of `postProcessTransaction`: clean the merchant name when one
is present (`if (transaction.merchant)`); a present-but-empty merchant
is falsy in JavaScript and left untouched. -/
def ppMerchant (clean : String → String) (t : Guess) : Guess :=
  if strTruthy t.merchant then { t with merchant := some (clean (t.merchant.getD "")) }
  else t

/-- Step 3 of `postProcessTransaction`: infer the institution from the
email sender/subject when the field is absent or empty
(`if (!transaction.institution)`). -/
def ppInstitution (t : Guess) (email : Email) : Guess :=
  if strTruthy t.institution then t
  else { t with institution := some (detectInstitution email.sender email.subject) }

/-- The default confidence 0.75 of `postProcessTransaction`, as a
reduced fraction. -/
def defaultConfidence : ℚ := ⟨3, 4, by norm_num, by norm_num⟩

/-- Step 4 of `postProcessTransaction`: default the confidence to 0.75
when absent, zero (falsy), or out of `[0, 1]`. -/
def ppConfidence (t : Guess) : Guess :=
  match t.confidence with
  | some c => if c ≤ 0 ∨ 1 < c then { t with confidence := some defaultConfidence } else t
  | none => { t with confidence := some defaultConfidence }

/-- Step 5 of `postProcessTransaction`: when a currency is present and
differs from CAD, retain the original amount/currency, convert the
amount to CAD via the static rate table, and set `display_currency` to
CAD. -/
def ppCurrency (t : Guess) : Guess :=
  if strTruthy t.currency ∧ t.currency ≠ some "CAD" then
    { t with original_amount := t.amount,
             original_currency := t.currency,
             amount := convertAmountJs t.amount (t.currency.getD "") "CAD",
             display_currency := some "CAD" }
  else t

/-- `postProcessTransaction(transaction, email)` of parser.js, the five
steps in source order.  The merchant-cleaning routine
(`cleanMerchantName`, regex-based) is abstracted as the function
parameter `clean`; no claim depends on its internals.  The
string→number amount coercion step is subsumed by modelling amounts as
`JsNum` directly (a non-numeric amount is `nan`). -/
def postProcessTransaction (clean : String → String) (t0 : Guess) (email : Email) : Guess :=
  ppCurrency (ppConfidence (ppInstitution (ppMerchant clean (ppMeta t0 email)) email))

/-- The fixed `validCategories` enumeration of `validateTransaction`. -/
def validCategories : List String :=
  ["groceries", "dining", "transport", "shopping", "bills", "entertainment",
   "health", "transfer", "other"]

/-- The fixed `validTypes` enumeration of `validateTransaction`. -/
def validTypes : List String :=
  ["debit", "credit", "refund", "payment", "transfer"]

/-- The first rejection test of `validateTransaction`:
`!t.amount || isNaN(t.amount) || t.amount <= 0` — true for a missing
amount, NaN, zero (falsy) or a non-positive number. -/
def amountInvalid : Option JsNum → Bool
  | none => true
  | some JsNum.nan => true
  | some (JsNum.num q) => q ≤ 0

/-- The sanity ceiling test of `validateTransaction`:
`t.amount > 1000000`. -/
def amountTooLarge : Option JsNum → Bool
  | some (JsNum.num q) => 1000000 < q
  | _ => false

/-- JavaScript `String.prototype.trim`: strip whitespace from both ends
(implemented structurally over the character list so that it evaluates
inside the kernel). -/
def jsTrim (s : String) : String :=
  ⟨(((s.data.dropWhile Char.isWhitespace).reverse).dropWhile Char.isWhitespace).reverse⟩

/-- The merchant test of `validateTransaction`:
`!t.merchant || t.merchant.trim().length === 0`. -/
def merchantMissing : Option String → Bool
  | none => true
  | some s => (jsTrim s).length == 0

/-- The date test of `validateTransaction`:
`!t.date || !isValidDate(t.date)`.  JavaScript `Date` parsing
(`isValidDate`) is abstracted as the parameter `isDateValid`. -/
def dateOk (isDateValid : String → Bool) : Option String → Bool
  | none => false
  | some s => s != "" && isDateValid s

/-- The category membership test of `validateTransaction`:
`t.category && validCategories.includes(t.category)`. -/
def categoryOk : Option String → Bool
  | some c => validCategories.contains c
  | none => false

/-- The transaction-type membership test of `validateTransaction`:
`t.transaction_type && validTypes.includes(t.transaction_type)`. -/
def typeOk : Option String → Bool
  | some ty => validTypes.contains ty
  | none => false

/-- `validateTransaction(transaction)` of parser.js.  The source mutates
the record (coercing bad category/transaction_type) and returns a
boolean used by `filter`; this is modelled as returning `none` for a
rejected guess and `some` of the coerced guess otherwise. -/
def validateTransaction (isDateValid : String → Bool) (t : Guess) : Option Guess :=
  if amountInvalid t.amount then none
  else if amountTooLarge t.amount then none
  else if merchantMissing t.merchant then none
  else if ¬ dateOk isDateValid t.date then none
  else
    let t1 := if categoryOk t.category then t else { t with category := some "other" }
    let t2 := if typeOk t1.transaction_type then t1
              else { t1 with transaction_type := some "debit" }
    some t2

/-- The structural shapes `JSON.parse` can return for the extraction
service's cleaned response text in parser.js: an object with
`is_transaction: false`, a single transaction object, or an array of
transaction objects. -/
inductive ParsedJson where
  | notTransaction : ParsedJson
  | single : Guess → ParsedJson
  | multiple : List Guess → ParsedJson
deriving DecidableEq

/-- The outcome of `extractJSON(responseText)`: `malformed` when
`JSON.parse` fails (the function catches and returns `null`), otherwise
the parsed value. -/
inductive AiResponse where
  | malformed : AiResponse
  | json : ParsedJson → AiResponse
deriving DecidableEq

/-- The outcome of the `anthropic.messages.create` call (and anything
else inside the `try` of `parseTransactionEmail`): either a thrown error
with its message, or a response text whose `extractJSON` outcome is
given. -/
inductive ServiceResult where
  | thrown : String → ServiceResult
  | response : AiResponse → ServiceResult
deriving DecidableEq

/-- The value returned by `parseTransactionEmail`: a success with
`is_transaction: false` (carrying the email id and message), a success
with a non-empty list of validated transactions, or a failure object
`{success: false, error, email_id}`. -/
inductive ParseResult where
  | notTransaction : String → String → ParseResult
  | transactions : List Guess → ParseResult
  | failed : String → String → ParseResult
deriving DecidableEq

/-- `parseTransactionEmail(email)` of parser.js (enhanced version).  The
extraction service is the oracle `svc`; a thrown error lands in the
`catch` branch; a `null` from `extractJSON` or `is_transaction === false`
yields the not-a-transaction result; otherwise the parsed transactions
are post-processed, filtered by `validateTransaction`, and returned
(falling back to not-a-transaction when none survive validation). -/
def parseTransactionEmail (isDateValid : String → Bool) (clean : String → String)
    (svc : Email → ServiceResult) (email : Email) : ParseResult :=
  match svc email with
  | ServiceResult.thrown msg => ParseResult.failed email.id msg
  | ServiceResult.response AiResponse.malformed =>
      ParseResult.notTransaction email.id "Email does not contain transaction information"
  | ServiceResult.response (AiResponse.json ParsedJson.notTransaction) =>
      ParseResult.notTransaction email.id "Email does not contain transaction information"
  | ServiceResult.response (AiResponse.json p) =>
      let ts0 : List Guess := match p with
        | ParsedJson.multiple gs => gs
        | ParsedJson.single g => [g]
        | ParsedJson.notTransaction => []
      let ts1 := ts0.map (fun t => postProcessTransaction clean t email)
      let ts2 := ts1.filterMap (validateTransaction isDateValid)
      if ts2.isEmpty then
        ParseResult.notTransaction email.id "Could not extract valid transaction data"
      else ParseResult.transactions ts2

/-- The aggregate result object of `parseMultipleEmails` (the
`processing_time` field is timing-only and omitted). -/
structure BatchResults where
  all_transactions : List Guess := []
  non_transaction_emails : List String := []
  failed : List (String × String) := []
  total_emails : Nat := 0
  total_transactions : Nat := 0
deriving DecidableEq

/-- The per-result accumulation step of the `batchResults.forEach` body
in `parseMultipleEmails`. -/
def processResult (acc : BatchResults) (r : ParseResult) : BatchResults :=
  match r with
  | ParseResult.transactions gs =>
      { acc with all_transactions := acc.all_transactions ++ gs,
                 total_transactions := acc.total_transactions + gs.length }
  | ParseResult.notTransaction i _ =>
      { acc with non_transaction_emails := acc.non_transaction_emails ++ [i] }
  | ParseResult.failed i e =>
      { acc with failed := acc.failed ++ [(i, e)] }

/-- `emails.slice(i, i + BATCH_SIZE)` chunking of `parseMultipleEmails`
with `BATCH_SIZE = 5`: the list split in order into groups of 5 (the
last group possibly shorter), with the loop unrolled into structural
patterns so that it evaluates inside the kernel. -/
def chunks5 {α : Type} : List α → List (List α)
  | [] => []
  | [x1] => [[x1]]
  | [x1, x2] => [[x1, x2]]
  | [x1, x2, x3] => [[x1, x2, x3]]
  | [x1, x2, x3, x4] => [[x1, x2, x3, x4]]
  | x1 :: x2 :: x3 :: x4 :: x5 :: rest => [x1, x2, x3, x4, x5] :: chunks5 rest

/-- `parseMultipleEmails(emails)` of parser.js (enhanced version):
process the emails in sequential groups of 5, accumulating each group's
results in order into the aggregate object. -/
def parseMultipleEmails (isDateValid : String → Bool) (clean : String → String)
    (svc : Email → ServiceResult) (emails : List Email) : BatchResults :=
  let init : BatchResults := { total_emails := emails.length }
  (chunks5 emails).foldl
    (fun acc batch =>
      (batch.map (parseTransactionEmail isDateValid clean svc)).foldl processResult acc)
    init

/-- Events of one `parseMultipleEmails` run, recording the scheduling
structure of the batch loop: a whole group's extraction calls are
submitted together (`batch.map(parseTransactionEmail)`), the group is
awaited to completion (`await Promise.all`), and a fixed pause is
slept between consecutive groups. -/
inductive BatchEvent where
  | submit : List Email → BatchEvent
  | resolve : List Email → BatchEvent
  | pause : Nat → BatchEvent
deriving DecidableEq

/-- The event trace of the batch loop over a given chunk list: submit
then resolve each group, with `sleep(200)` exactly when further chunks
remain (`i + BATCH_SIZE < emails.length`). -/
def batchTraceAux : List (List Email) → List BatchEvent
  | [] => []
  | [g] => [BatchEvent.submit g, BatchEvent.resolve g]
  | g :: g2 :: rest =>
      BatchEvent.submit g :: BatchEvent.resolve g :: BatchEvent.pause 200 ::
        batchTraceAux (g2 :: rest)

/-- The event trace of `parseMultipleEmails` on a list of emails. -/
def batchTrace (emails : List Email) : List BatchEvent :=
  batchTraceAux (chunks5 emails)

/-- Outcome of one `gmail.users.messages.get` attempt for a message:
either the assembled email object or a thrown error message. -/
inductive FetchAttempt where
  | ok : Email → FetchAttempt
  | err : String → FetchAttempt
deriving DecidableEq

/-- Whether a fetch attempt outcome is an error. -/
def FetchAttempt.isErr : FetchAttempt → Bool
  | FetchAttempt.ok _ => false
  | FetchAttempt.err _ => true

/-- The retry loop of `getEmailContent(messageId, retries)` in the
enhanced GmailService: `outcome a` is the result of attempt number `a`
(1-based); the second argument is the current attempt number, the third
the number of attempts still allowed.  On failure at the final attempt
the message resolves to `null` with no further delay; on an earlier
failure the loop sleeps `1000 * 2 ** (attempt - 1)` ms and retries.
Returns the result together with the list of executed sleep delays. -/
def getEmailContentGo (outcome : Nat → FetchAttempt) (attempt : Nat) :
    Nat → Option Email × List Nat
  | 0 => (none, [])
  | remaining + 1 =>
    match outcome attempt with
    | FetchAttempt.ok e => (some e, [])
    | FetchAttempt.err _ =>
      if remaining = 0 then (none, [])
      else
        let rest := getEmailContentGo outcome (attempt + 1) remaining
        (rest.1, 1000 * 2 ^ (attempt - 1) :: rest.2)

/-- `getEmailContent(messageId, retries)` of the enhanced GmailService
(src/unnamed/part_006): up to `retries` attempts starting at attempt 1,
never throwing — a message that fails every attempt resolves to `null`
("don't crash entire sync for one email"). -/
def getEmailContent (outcome : Nat → FetchAttempt) (retries : Nat) :
    Option Email × List Nat :=
  getEmailContentGo outcome 1 retries

/-- The content-fetch phase of `fetchPotentialTransactionEmails` of the
enhanced GmailService: fetch every listed message id in parallel with
the default 3 attempts each, then
`emails.filter(email => email !== null)`. -/
def fetchPotentialTransactionEmails (outcome : String → Nat → FetchAttempt)
    (msgs : List String) : List Email :=
  (msgs.map (fun i => (getEmailContent (outcome i) 3).1)).filterMap (fun x => x)

/-- A row of the `transactions` table as built by `saveTransactions` of
database.js (the columns the claims are about; `category_id` is filled
by the category-name lookup pass, `email_date` is a raw-date detail
omitted here). -/
structure Row where
  user_id : String
  amount : Option JsNum
  original_amount : Option JsNum
  original_currency : String
  display_currency : String
  merchant_name : Option String
  category_id : Option String
  transaction_date : Option String
  transaction_type : Option String
  email_id : Option String
  parsing_confidence : ℚ
deriving DecidableEq

/-- The fallback confidence 0.85 of the `saveTransactions` row mapping
(`t.confidence || 0.85`), as a reduced fraction. -/
def defaultDbConfidence : ℚ := ⟨17, 20, by norm_num, by norm_num⟩

/-- The per-transaction row construction of `saveTransactions`:
`original_amount: t.original_amount || t.amount`,
`original_currency: t.currency || t.original_currency || 'CAD'`,
`display_currency: t.currency || 'CAD'`,
`parsing_confidence: t.confidence || 0.85`, the rest copied. -/
def toRow (userId : String) (t : Guess) : Row :=
  { user_id := userId,
    amount := t.amount,
    original_amount := if jsTruthyNum t.original_amount then t.original_amount else t.amount,
    original_currency := jsOrS t.currency (jsOrS t.original_currency "CAD"),
    display_currency := jsOrS t.currency "CAD",
    merchant_name := t.merchant,
    category_id := none,
    transaction_date := t.date,
    transaction_type := t.transaction_type,
    email_id := t.email_id,
    parsing_confidence :=
      match t.confidence with
      | some c => if c = 0 then defaultDbConfidence else c
      | none => defaultDbConfidence }

/-- The category-lookup pass of `saveTransactions`: for each prepared
row, find the first input transaction with the same `email_id`
(JavaScript `===`, where two `undefined` are equal), and when it has a
truthy category name that the `categories` table resolves, set the
row's `category_id`. -/
def fillCategoryId (catLookup : String → Option String) (transactions : List Guess)
    (row : Row) : Row :=
  match (transactions.find? (fun t => t.email_id == row.email_id)).bind (fun t => t.category) with
  | some categoryName =>
      if categoryName != "" then
        match catLookup categoryName with
        | some cid => { row with category_id := some cid }
        | none => row
      else row
  | none => row

/-- Whether two `email_id` column values conflict under the store's
uniqueness constraint: both present and equal (SQL `NULL`s never
conflict). -/
def keyConflict (a b : Option String) : Bool :=
  match a, b with
  | some x, some y => x == y
  | _, _ => false

/-- The store collaborator's `upsert(..., onConflict: email_id,
ignoreDuplicates: true)`: insert rows left to right, silently skipping
any row whose `email_id` conflicts with a row already in the store
(including rows inserted earlier in the same call); returns the new
store and the inserted rows, in order. -/
def upsertIgnore : List Row → List Row → List Row × List Row
  | store, [] => (store, [])
  | store, r :: rs =>
    if store.any (fun r2 => keyConflict r2.email_id r.email_id) then
      upsertIgnore store rs
    else
      let rest := upsertIgnore (store ++ [r]) rs
      (rest.1, r :: rest.2)

/-- The result object of `saveTransactions`: `saved` is the number of
inserted rows, `duplicates` is `transactionsToInsert.length - saved`,
and `transactions` the inserted rows. -/
structure SaveResult where
  saved : Nat
  duplicates : Nat
  transactions : List Row
deriving DecidableEq

/-- `saveTransactions(userId, transactions)` of database.js (enhanced
version), against an explicit store state: map the input to rows, run
the category-lookup pass, upsert ignoring `email_id` conflicts, and
report saved/duplicate counts.  Returns the new store together with
the result object. -/
def saveTransactions (catLookup : String → Option String) (store : List Row)
    (userId : String) (transactions : List Guess) : List Row × SaveResult :=
  let toInsert := (transactions.map (toRow userId)).map
    (fillCategoryId catLookup transactions)
  let res := upsertIgnore store toInsert
  (res.1, { saved := res.2.length,
            duplicates := toInsert.length - res.2.length,
            transactions := res.2 })

/-- The sync_logs record for one run, as written by `createSyncLog` /
`updateSyncLog` of database.js.  Modelled from the spec: the initial
`status` value `"running"` comes from the spec's SyncRun data model (the
database schema with its column default is not part of the sources);
all other fields and both updates follow sync.js / database.js.  Columns
not mentioned by an update stay unchanged (supabase drops `undefined`
fields). -/
structure SyncLogRecord where
  status : String := "running"
  completedAt : Option Nat := none
  emailsFetched : Option Nat := none
  emailsProcessed : Option Nat := none
  transactionsFound : Option Nat := none
  transactionsSaved : Option Nat := none
  duplicatesSkipped : Option Nat := none
  errorsCount : Option Nat := none
  errors : Option (List String) := none
deriving DecidableEq

/-- The `updateSyncLog` call of the `catch` branch of `/full-sync`:
`{completedAt, startedAt, status: 'failed', errors: [{message, ...}]}`. -/
def failSyncLog (msg : String) (endTime : Nat) (rec : SyncLogRecord) : SyncLogRecord :=
  { rec with status := "failed", completedAt := some endTime, errors := some [msg] }

/-- The stats object of the `/full-sync` JSON response.  The empty-inbox
response carries only `emailsFetched`, `transactionsFound` and
`transactionsSaved`; the remaining fields are `none` there
(`processingTime` is timing-only and omitted). -/
structure ResponseStats where
  emailsFetched : Nat
  emailsProcessed : Option Nat := none
  transactionsFound : Nat
  transactionsSaved : Nat
  duplicatesSkipped : Option Nat := none
  nonTransactionEmails : Option Nat := none
  failedCount : Option Nat := none
deriving DecidableEq

/-- The HTTP outcome of `/full-sync`: a success JSON body with stats, or
the 500 error body with the thrown error's message. -/
inductive SyncResponse where
  | success : ResponseStats → SyncResponse
  | serverError : String → SyncResponse
deriving DecidableEq

/-- The environment of one `/full-sync` request: outcomes of the
external collaborators, plus abstract exception-injection points for
the extract and persist stages (the `try/catch` treats any throw inside
the `try` uniformly; in the sources the extract and persist services
catch internally, but the handler's contract covers any throw). -/
structure SyncInput where
  userOk : Bool
  logCreateOk : Bool
  fetchResult : Option (List Email) := none
  fetchThrow : Option String := none
  extractThrow : Option String := none
  persistThrow : Option String := none
  svc : Email → ServiceResult
  isDateValid : String → Bool
  clean : String → String
  catLookup : String → Option String
  store : List Row := []
  endTime : Nat := 0

/-- Everything observable after one `/full-sync` request: the HTTP
response, the final sync-log record (none when no record was created),
the final transactions store, and whether the extractor / the save were
invoked. -/
structure SyncOutcome where
  response : SyncResponse
  log : Option SyncLogRecord
  store : List Row
  extractorCalled : Bool
  saveAttempted : Bool

/-- The `/full-sync` handler of routes/sync.js: look up the user (a miss
throws), create the sync log, fetch emails (empty inbox short-circuits
to a zero-stats success and a success log), parse with
`parseMultipleEmails`, save with `saveTransactions` when any
transactions were found, finalize the log, and answer; any throw lands
in the `catch`, which finalizes the log as failed (when a log record
exists) before answering 500. -/
def runSync (inp : SyncInput) (userId : String) : SyncOutcome :=
  if !inp.userOk then
    { response := SyncResponse.serverError "User not found in database",
      log := none, store := inp.store, extractorCalled := false, saveAttempted := false }
  else
    let log0 : Option SyncLogRecord := if inp.logCreateOk then some {} else none
    match inp.fetchThrow with
    | some msg =>
        { response := SyncResponse.serverError msg,
          log := log0.map (failSyncLog msg inp.endTime),
          store := inp.store, extractorCalled := false, saveAttempted := false }
    | none =>
      let emails := (inp.fetchResult).getD []
      if emails.isEmpty then
        { response := SyncResponse.success
            { emailsFetched := 0, transactionsFound := 0, transactionsSaved := 0 },
          log := log0.map (fun rec =>
            { rec with status := "success", completedAt := some inp.endTime,
                       emailsFetched := some 0, emailsProcessed := some 0,
                       transactionsFound := some 0, transactionsSaved := some 0,
                       duplicatesSkipped := some 0, errorsCount := some 0 }),
          store := inp.store, extractorCalled := false, saveAttempted := false }
      else
        match inp.extractThrow with
        | some msg =>
            { response := SyncResponse.serverError msg,
              log := log0.map (failSyncLog msg inp.endTime),
              store := inp.store, extractorCalled := true, saveAttempted := false }
        | none =>
          let pr := parseMultipleEmails inp.isDateValid inp.clean inp.svc emails
          match inp.persistThrow with
          | some msg =>
              { response := SyncResponse.serverError msg,
                log := log0.map (failSyncLog msg inp.endTime),
                store := inp.store, extractorCalled := true, saveAttempted := true }
          | none =>
            let saved := if 0 < pr.all_transactions.length then
                saveTransactions inp.catLookup inp.store userId pr.all_transactions
              else (inp.store, { saved := 0, duplicates := 0, transactions := [] })
            { response := SyncResponse.success
                { emailsFetched := emails.length,
                  emailsProcessed := some pr.total_emails,
                  transactionsFound := pr.total_transactions,
                  transactionsSaved := (saved.2).saved,
                  duplicatesSkipped := some (saved.2).duplicates,
                  nonTransactionEmails := some pr.non_transaction_emails.length,
                  failedCount := some pr.failed.length },
              log := log0.map (fun rec =>
                { rec with status := "success", completedAt := some inp.endTime,
                           emailsFetched := some emails.length,
                           emailsProcessed := some pr.total_emails,
                           transactionsFound := some pr.total_transactions,
                           transactionsSaved := some (saved.2).saved,
                           duplicatesSkipped := some (saved.2).duplicates,
                           errorsCount := some pr.failed.length,
                           errors := if 0 < pr.failed.length
                                     then some (pr.failed.map (fun f => f.2)) else none }),
              store := saved.1, extractorCalled := true,
              saveAttempted := 0 < pr.all_transactions.length }

/-- Concrete fixture: a typical candidate message. -/
def emailA : Email :=
  { id := "msg-1", sender := "alerts@cibc.com", subject := "Purchase alert",
    date := "Wed, 1 Jan 2025 10:00:00 +0000", body := "You spent CAD 12.00 at Tim Hortons" }

/-- Concrete fixture: a message whose extraction response will be
malformed. -/
def emailBad : Email :=
  { id := "msg-bad", sender := "x@y.z", subject := "Transaction notice",
    date := "Thu, 2 Jan 2025 10:00:00 +0000", body := "garbled" }

/-- Concrete fixture: a well-formed CAD transaction guess (a fixed point
of every post-processing step except the email-metadata one). -/
def gA1 : Guess :=
  { amount := some (JsNum.num 12), currency := some "CAD", merchant := some "Tim Hortons",
    category := some "dining", date := some "2025-01-01", institution := some "CIBC",
    transaction_type := some "debit", confidence := some ⟨9, 10, by norm_num, by norm_num⟩ }

/-- Concrete fixture: a second well-formed CAD transaction guess. -/
def gA2 : Guess :=
  { amount := some (JsNum.num 30), currency := some "CAD", merchant := some "Best Buy",
    category := some "shopping", date := some "2025-01-03", institution := some "CIBC",
    transaction_type := some "debit", confidence := some ⟨4, 5, by norm_num, by norm_num⟩ }

/-- `gA1` with the metadata of `emailA` attached, i.e. its image under
`postProcessTransaction` (with identity cleaning). -/
def gA1meta : Guess :=
  { gA1 with email_id := some emailA.id, email_subject := some emailA.subject,
             email_date := some emailA.date }

/-- `gA2` with the metadata of `emailA` attached. -/
def gA2meta : Guess :=
  { gA2 with email_id := some emailA.id, email_subject := some emailA.subject,
             email_date := some emailA.date }

/-- Concrete fixture: an INR transaction guess (₹2000.47 at Swiggy). -/
def guessINR : Guess :=
  { amount := some (JsNum.num ⟨200047, 100, by norm_num, by norm_num⟩), currency := some "INR",
    merchant := some "Swiggy", category := some "dining", date := some "2025-12-22",
    institution := some "HDFC", transaction_type := some "debit",
    confidence := some ⟨19, 20, by norm_num, by norm_num⟩ }

/-- Concrete extraction-service oracle: every message yields the single
transaction `gA1`. -/
def svcSingleA : Email → ServiceResult :=
  fun _ => ServiceResult.response (AiResponse.json (ParsedJson.single gA1))

/-- Concrete extraction-service oracle: every message yields the two
transactions `gA1` and `gA2`. -/
def svcTwoA : Email → ServiceResult :=
  fun _ => ServiceResult.response (AiResponse.json (ParsedJson.multiple [gA1, gA2]))

/-- Concrete extraction-service oracle: `emailBad` gets a malformed
response, every other message yields `gA1`. -/
def svcMixed : Email → ServiceResult :=
  fun e => if e.id = "msg-bad" then ServiceResult.response AiResponse.malformed
           else ServiceResult.response (AiResponse.json (ParsedJson.single gA1))

/-- Concrete mailbox oracle: message id "bad" fails every fetch attempt,
every other id succeeds immediately with `emailA`. -/
def outcomeC2 : String → Nat → FetchAttempt :=
  fun i _ => if i = "bad" then FetchAttempt.err "socket timeout" else FetchAttempt.ok emailA

/-- Concrete sync-run environment: one fetched email, extraction yields
one valid transaction, empty store. -/
def inpC1 : SyncInput :=
  { userOk := true, logCreateOk := true, fetchResult := some [emailA],
    svc := svcSingleA, isDateValid := fun _ => true, clean := fun s => s,
    catLookup := fun _ => none, endTime := 7 }

/-- The response stats of `runSync inpC1`. -/
def statsC1 : ResponseStats :=
  { emailsFetched := 1, emailsProcessed := some 1, transactionsFound := 1,
    transactionsSaved := 1, duplicatesSkipped := some 0,
    nonTransactionEmails := some 0, failedCount := some 0 }

/-- Concrete sync-run environment: the fetch stage throws. -/
def inpC4 : SyncInput :=
  { userOk := true, logCreateOk := true, fetchThrow := some "Gmail API quota exceeded",
    svc := svcSingleA, isDateValid := fun _ => true, clean := fun s => s,
    catLookup := fun _ => none, endTime := 9 }

/-- Concrete sync-run environment: the fetch returns an empty list. -/
def inpC5 : SyncInput :=
  { userOk := true, logCreateOk := true, fetchResult := some [],
    svc := svcSingleA, isDateValid := fun _ => true, clean := fun s => s,
    catLookup := fun _ => none, endTime := 4 }

/-- Concrete fixture: a guess whose core fields are valid but whose
category and transaction type are outside the fixed enumerations. -/
def gBadCat : Guess :=
  { amount := some (JsNum.num 5), merchant := some "Corner Store",
    category := some "stuff", date := some "2025-02-02",
    transaction_type := some "spend" }

/-- The stats object of the empty-inbox `/full-sync` response. -/
def emptySyncStats : ResponseStats :=
  { emailsFetched := 0, transactionsFound := 0, transactionsSaved := 0 }

/-- The sync-log record written on the empty-inbox path: finalized as
success with all-zero counters. -/
def emptySuccessLog (endTime : Nat) : SyncLogRecord :=
  { status := "success", completedAt := some endTime, emailsFetched := some 0,
    emailsProcessed := some 0, transactionsFound := some 0, transactionsSaved := some 0,
    duplicatesSkipped := some 0, errorsCount := some 0 }

/-- The transactions contributed by one parse result. -/
def txOf : ParseResult → List Guess
  | ParseResult.transactions gs => gs
  | _ => []

/-- The non-transaction email id contributed by one parse result. -/
def nonOf : ParseResult → List String
  | ParseResult.notTransaction i _ => [i]
  | _ => []

/-- The failure entry contributed by one parse result. -/
def failOf : ParseResult → List (String × String)
  | ParseResult.failed i e => [(i, e)]
  | _ => []

theorem foldl_processResult (rs : List ParseResult) (acc : BatchResults) :
    rs.foldl processResult acc =
      { all_transactions := acc.all_transactions ++ (rs.map txOf).flatten,
        non_transaction_emails := acc.non_transaction_emails ++ (rs.map nonOf).flatten,
        failed := acc.failed ++ (rs.map failOf).flatten,
        total_emails := acc.total_emails,
        total_transactions :=
          acc.total_transactions + ((rs.map txOf).map List.length).sum } := by
  induction rs generalizing acc with
  | nil => simp
  | cons r rest ih =>
      cases r <;>
        simp [processResult, txOf, nonOf, failOf, ih, List.append_assoc, Nat.add_assoc]

theorem chunks5_flatten {α : Type} (l : List α) : (chunks5 l).flatten = l := by
  induction l using chunks5.induct <;> simp_all [chunks5]

theorem chunks5_groups {α : Type} (l : List α) (g : List α) (hg : g ∈ chunks5 l) :
    g ≠ [] ∧ g.length ≤ 5 := by
  induction l using chunks5.induct <;> simp_all [chunks5]
  all_goals (rcases hg with h | h
             · subst h; simp
             · simp_all)

theorem chunks5_full_groups {α : Type} (l : List α) (i : Nat)
    (h : i + 1 < (chunks5 l).length) : ((chunks5 l).getD i []).length = 5 := by
  induction l using chunks5.induct generalizing i with
  | case1 => simp [chunks5] at h
  | case2 => simp [chunks5] at h
  | case3 => simp [chunks5] at h
  | case4 => simp [chunks5] at h
  | case5 => simp [chunks5] at h
  | case6 x1 x2 x3 x4 x5 rest ih =>
      cases i with
      | zero => simp [chunks5]
      | succ j =>
          simp only [chunks5, List.length_cons] at h
          simpa [chunks5] using ih j (by omega)

theorem batchTraceAux_eq (gs : List (List Email)) :
    batchTraceAux gs
      = ((gs.map (fun g => [BatchEvent.submit g, BatchEvent.resolve g])).intersperse
          [BatchEvent.pause 200]).flatten := by
  induction gs with
  | nil => simp [batchTraceAux]
  | cons g rest ih =>
      cases rest with
      | nil => simp [batchTraceAux, List.intersperse]
      | cons g2 rest2 =>
          simp only [batchTraceAux, List.map_cons, List.intersperse] at ih ⊢
          simp [ih]

theorem foldl_map_foldl {α β γ : Type} (f : α → γ) (g : β → γ → β)
    (cs : List (List α)) (acc : β) :
    cs.foldl (fun a ch => (ch.map f).foldl g a) acc = (cs.flatten.map f).foldl g acc := by
  induction cs generalizing acc with
  | nil => simp
  | cons ch rest ih => simp [List.foldl_append, ih]

theorem parseMultipleEmails_eq (v : String → Bool) (c : String → String)
    (s : Email → ServiceResult) (emails : List Email) :
    parseMultipleEmails v c s emails
      = (emails.map (parseTransactionEmail v c s)).foldl processResult
          { total_emails := emails.length } := by
  unfold parseMultipleEmails
  rw [foldl_map_foldl, chunks5_flatten]

theorem upsertIgnore_length (store rows : List Row) :
    (upsertIgnore store rows).2.length ≤ rows.length := by
  induction rows generalizing store with
  | nil => simp [upsertIgnore]
  | cons r rs ih =>
      unfold upsertIgnore
      split
      · exact Nat.le_trans (ih store) (Nat.le_succ _)
      · simpa using ih (store ++ [r])

theorem saveTransactions_counts (catLookup : String → Option String) (store : List Row)
    (userId : String) (ts : List Guess) :
    (saveTransactions catLookup store userId ts).2.saved
      + (saveTransactions catLookup store userId ts).2.duplicates = ts.length := by
  unfold saveTransactions
  have h := upsertIgnore_length store
    ((ts.map (toRow userId)).map (fillCategoryId catLookup ts))
  simp only [List.length_map] at h ⊢
  omega

theorem upsertIgnore_all_conflict (rows : List Row) (store : List Row) (k : String)
    (hrows : ∀ r ∈ rows, r.email_id = some k)
    (hstore : store.any (fun r2 => keyConflict r2.email_id (some k)) = true) :
    upsertIgnore store rows = (store, []) := by
  induction rows with
  | nil => simp [upsertIgnore]
  | cons r rs ih =>
      unfold upsertIgnore
      rw [hrows r (by simp), hstore]
      exact ih (fun x hx => hrows x (by simp [hx]))

theorem upsertIgnore_same_key (store : List Row) (r : Row) (rs : List Row) (k : String)
    (hr : r.email_id = some k) (hrs : ∀ x ∈ rs, x.email_id = some k)
    (hstore : store.any (fun r2 => keyConflict r2.email_id (some k)) = false) :
    upsertIgnore store (r :: rs) = (store ++ [r], [r]) := by
  unfold upsertIgnore
  rw [hr, hstore]
  simp only [Bool.false_eq_true, if_false]
  rw [upsertIgnore_all_conflict rs (store ++ [r]) k hrs
    (by simp [hr, keyConflict])]

theorem ppMerchant_email_id (clean : String → String) (t : Guess) :
    (ppMerchant clean t).email_id = t.email_id := by
  unfold ppMerchant; split <;> rfl

theorem ppInstitution_email_id (t : Guess) (email : Email) :
    (ppInstitution t email).email_id = t.email_id := by
  unfold ppInstitution; split <;> rfl

theorem ppConfidence_email_id (t : Guess) :
    (ppConfidence t).email_id = t.email_id := by
  unfold ppConfidence
  repeat' split
  all_goals rfl

theorem ppCurrency_email_id (t : Guess) :
    (ppCurrency t).email_id = t.email_id := by
  unfold ppCurrency; split <;> rfl

theorem postProcess_email_id (clean : String → String) (t : Guess) (email : Email) :
    (postProcessTransaction clean t email).email_id = some email.id := by
  unfold postProcessTransaction
  rw [ppCurrency_email_id, ppConfidence_email_id, ppInstitution_email_id,
    ppMerchant_email_id]
  rfl

theorem validateTransaction_fields (f : String → Bool) (t t' : Guess)
    (h : validateTransaction f t = some t') :
    t'.amount = t.amount ∧ t'.merchant = t.merchant ∧ t'.date = t.date ∧
    t'.email_id = t.email_id ∧
    t'.category = (if categoryOk t.category then t.category else some "other") ∧
    t'.transaction_type =
      (if typeOk t.transaction_type then t.transaction_type else some "debit") := by
  unfold validateTransaction at h
  dsimp only at h
  repeat' split at h
  all_goals cases h
  all_goals simp_all

theorem validateTransaction_passes (f : String → Bool) (t t' : Guess)
    (h : validateTransaction f t = some t') :
    amountInvalid t.amount = false ∧ amountTooLarge t.amount = false ∧
    merchantMissing t.merchant = false ∧ dateOk f t.date = true := by
  unfold validateTransaction at h
  dsimp only at h
  repeat' split at h
  all_goals cases h
  all_goals simp_all

theorem validateTransaction_inv (f : String → Bool) (t t' : Guess)
    (h : validateTransaction f t = some t') :
    (∃ q : ℚ, t'.amount = some (JsNum.num q) ∧ 0 < q ∧ q ≤ 1000000) ∧
    categoryOk t'.category = true ∧ typeOk t'.transaction_type = true ∧
    merchantMissing t'.merchant = false ∧ dateOk f t'.date = true := by
  obtain ⟨ham, hmer, hdate, _, hcat, hty⟩ := validateTransaction_fields f t t' h
  obtain ⟨h1, h2, h3, h4⟩ := validateTransaction_passes f t t' h
  refine ⟨?_, ?_, ?_, ?_, ?_⟩
  · rw [ham]
    cases ha : t.amount with
    | none => rw [ha] at h1; simp [amountInvalid] at h1
    | some jn =>
        cases jn with
        | nan => rw [ha] at h1; simp [amountInvalid] at h1
        | num q =>
            refine ⟨q, rfl, ?_, ?_⟩
            · rw [ha] at h1; simpa [amountInvalid, not_le] using h1
            · rw [ha] at h2; simpa [amountTooLarge, not_lt] using h2
  · rw [hcat]
    split
    · assumption
    · decide
  · rw [hty]
    split
    · assumption
    · decide
  · rw [hmer]; exact h3
  · rw [hdate]; exact h4

theorem getEmailContent_all_fail (outcome : Nat → FetchAttempt)
    (h : ∀ a, (outcome a).isErr = true) :
    getEmailContent outcome 3 = (none, [1000, 2000]) := by
  have h1 := h 1
  have h2 := h 2
  have h3 := h 3
  cases o1 : outcome 1 with
  | ok e => rw [o1] at h1; simp [FetchAttempt.isErr] at h1
  | err m1 =>
    cases o2 : outcome 2 with
    | ok e => rw [o2] at h2; simp [FetchAttempt.isErr] at h2
    | err m2 =>
      cases o3 : outcome 3 with
      | ok e => rw [o3] at h3; simp [FetchAttempt.isErr] at h3
      | err m3 =>
        show getEmailContentGo outcome 1 3 = (none, [1000, 2000])
        show getEmailContentGo outcome 1 (2 + 1) = (none, [1000, 2000])
        rw [getEmailContentGo, o1]
        show (_, 1000 * 2 ^ 0 :: (getEmailContentGo outcome 2 (1 + 1)).2) = _
        rw [getEmailContentGo, o2]
        show (_, _ :: 1000 * 2 ^ 1 :: (getEmailContentGo outcome 3 (0 + 1)).2) = _
        rw [getEmailContentGo, o3]
        norm_num

theorem fetch_append_skip (outcome : String → Nat → FetchAttempt)
    (pre post : List String) (badId : String)
    (hbad : (getEmailContent (outcome badId) 3).1 = none) :
    fetchPotentialTransactionEmails outcome (pre ++ badId :: post)
      = fetchPotentialTransactionEmails outcome pre
        ++ fetchPotentialTransactionEmails outcome post := by
  unfold fetchPotentialTransactionEmails
  simp [hbad]

theorem parseMultipleEmails_total (v : String → Bool) (c : String → String)
    (s : Email → ServiceResult) (emails : List Email) :
    (parseMultipleEmails v c s emails).total_transactions
      = (parseMultipleEmails v c s emails).all_transactions.length := by
  rw [parseMultipleEmails_eq, foldl_processResult]
  simp [List.length_flatten]

theorem parseTransactionEmail_transactions_inv (v : String → Bool) (c : String → String)
    (s : Email → ServiceResult) (e : Email) (gs : List Guess)
    (h : parseTransactionEmail v c s e = ParseResult.transactions gs) :
    gs ≠ [] ∧ ∀ g ∈ gs, ∃ t0 : Guess,
      validateTransaction v (postProcessTransaction c t0 e) = some g := by
  unfold parseTransactionEmail at h
  cases hsvc : s e with
  | thrown m => rw [hsvc] at h; cases h
  | response r =>
    rw [hsvc] at h
    cases r with
    | malformed => cases h
    | json p =>
      cases p with
      | notTransaction => cases h
      | single g0 =>
          dsimp only at h
          split at h
          · cases h
          · injection h with h
            subst h
            refine ⟨by simp_all, ?_⟩
            intro g hg
            rw [List.mem_filterMap] at hg
            obtain ⟨t1, ht1, hv⟩ := hg
            rw [List.mem_map] at ht1
            obtain ⟨t0, _, ht0⟩ := ht1
            exact ⟨t0, by rw [ht0, hv]⟩
      | multiple gs0 =>
          dsimp only at h
          split at h
          · cases h
          · injection h with h
            subst h
            refine ⟨by simp_all, ?_⟩
            intro g hg
            rw [List.mem_filterMap] at hg
            obtain ⟨t1, ht1, hv⟩ := hg
            rw [List.mem_map] at ht1
            obtain ⟨t0, _, ht0⟩ := ht1
            exact ⟨t0, by rw [ht0, hv]⟩

theorem toRow_email_id (userId : String) (t : Guess) :
    (toRow userId t).email_id = t.email_id := rfl

theorem fillCategoryId_email_id (catLookup : String → Option String)
    (ts : List Guess) (r : Row) :
    (fillCategoryId catLookup ts r).email_id = r.email_id := by
  unfold fillCategoryId
  repeat' split
  all_goals rfl

theorem filter_keyConflict_nil (store : List Row) (k : String)
    (hstore : store.any (fun r => keyConflict r.email_id (some k)) = false) :
    store.filter (fun r => keyConflict r.email_id (some k)) = [] := by
  rw [List.filter_eq_nil_iff]
  intro r hr
  rw [List.any_eq_false] at hstore
  simpa using hstore r hr

/-- Claim C9: for every amount and every currency code X, converting an
amount from X to X returns the amount unchanged:
`convertToCurrency amount X X = amount` (the same-currency guard of
`convertToCurrency`). -/
theorem C9_convert_same_currency (amount : ℚ) (X : String) :
    convertToCurrency amount X X = amount := by
  simp [convertToCurrency]

/-- Claim C8: `parseMultipleEmails` partitions the messages in order
into groups of 5 (every group non-empty and of size at most 5, every
group but the last of size exactly 5), and its event trace submits each
whole group at once, resolves it before the next group is submitted,
and sleeps the fixed 200 ms pause exactly between consecutive groups
(not after the last). -/
theorem C8_batch_schedule (emails : List Email) :
    (chunks5 emails).flatten = emails
    ∧ (∀ g ∈ chunks5 emails, g ≠ [] ∧ g.length ≤ 5)
    ∧ (∀ i : Nat, i + 1 < (chunks5 emails).length →
        ((chunks5 emails).getD i []).length = 5)
    ∧ batchTrace emails
        = (((chunks5 emails).map
              (fun g => [BatchEvent.submit g, BatchEvent.resolve g])).intersperse
            [BatchEvent.pause 200]).flatten :=
  ⟨chunks5_flatten emails, fun g hg => chunks5_groups emails g hg,
   fun i hi => chunks5_full_groups emails i hi, batchTraceAux_eq (chunks5 emails)⟩

/-- Claim C8 witness: on a batch of 7 messages the first group is a full
group of 5. -/
theorem C8_batch_schedule_witness :
    0 + 1 < (chunks5 (List.replicate 7 emailA)).length
    ∧ ((chunks5 (List.replicate 7 emailA)).getD 0 []).length = 5 :=
  ⟨by decide, (C8_batch_schedule (List.replicate 7 emailA)).2.2.1 0 (by decide)⟩

/-- Claim C2 counterexample: when every attempt for a message fails, the
executed backoff delays are 1000 ms and 2000 ms only — the claimed
third 4000 ms delay never occurs, because after the third failed
attempt the message is skipped immediately. -/
theorem C2_retry_schedule_counterexample :
    (getEmailContent (fun _ => FetchAttempt.err "socket timeout") 3).2 = [1000, 2000]
    ∧ (getEmailContent (fun _ => FetchAttempt.err "socket timeout") 3).1 = none
    ∧ [1000, 2000] ≠ [1000, 2000, 4000] :=
  ⟨by decide, by decide, by decide⟩

/-- Claim C2 (amended): a message whose every fetch attempt fails is
retried with bounded exponential backoff — 3 attempts with delays of
1 s and then 2 s between consecutive attempts, and no delay after the
final failure — and is then skipped (resolving to `null`), while the
rest of the batch is still returned; one failing message never aborts
the whole fetch. -/
theorem C2_fetch_isolation (outcome : String → Nat → FetchAttempt)
    (pre post : List String) (badId : String)
    (h : ∀ a, (outcome badId a).isErr = true) :
    getEmailContent (outcome badId) 3 = (none, [1000, 2000])
    ∧ fetchPotentialTransactionEmails outcome (pre ++ badId :: post)
      = fetchPotentialTransactionEmails outcome pre
        ++ fetchPotentialTransactionEmails outcome post := by
  have h1 := getEmailContent_all_fail (outcome badId) h
  exact ⟨h1, fetch_append_skip outcome pre post badId (by rw [h1])⟩

/-- Claim C2 witness: a concrete batch where the middle message fails
all attempts and the outer messages are still returned. -/
theorem C2_fetch_isolation_witness :
    getEmailContent (outcomeC2 "bad") 3 = (none, [1000, 2000])
    ∧ fetchPotentialTransactionEmails outcomeC2 (["g1"] ++ "bad" :: ["g2"])
      = fetchPotentialTransactionEmails outcomeC2 ["g1"]
        ++ fetchPotentialTransactionEmails outcomeC2 ["g2"] :=
  C2_fetch_isolation outcomeC2 ["g1"] ["g2"] "bad" (fun _ => rfl)

/-- Claim C3 counterexample: a message whose extraction response is
malformed is classified as a non-transaction email — its id is recorded
in `non_transaction_emails` and the `failed` list stays empty, contrary
to the claimed `ExtractionFailed` entry in the failed list. -/
theorem C3_malformed_counterexample :
    parseTransactionEmail (fun _ => true) (fun s => s) svcMixed emailBad
      = ParseResult.notTransaction "msg-bad" "Email does not contain transaction information"
    ∧ (parseMultipleEmails (fun _ => true) (fun s => s) svcMixed [emailBad]).failed = []
    ∧ (parseMultipleEmails (fun _ => true) (fun s => s)
        svcMixed [emailBad]).non_transaction_emails = ["msg-bad"] :=
  ⟨by decide, by decide, by decide⟩

/-- Claim C3 (amended): a malformed extraction-service response yields a
not-a-transaction outcome attributed to the message id — returned as
data, never thrown — recorded in the batch's `non_transaction_emails`
list (not in `failed`), and the remaining messages of the run are still
processed: the batch's transactions and failure entries are exactly
those of the run without the malformed message. -/
theorem C3_malformed_as_data (v : String → Bool) (c : String → String)
    (s : Email → ServiceResult) (e : Email) (pre post : List Email)
    (h : s e = ServiceResult.response AiResponse.malformed) :
    parseTransactionEmail v c s e
      = ParseResult.notTransaction e.id "Email does not contain transaction information"
    ∧ e.id ∈ (parseMultipleEmails v c s (pre ++ e :: post)).non_transaction_emails
    ∧ (parseMultipleEmails v c s (pre ++ e :: post)).failed
      = (parseMultipleEmails v c s (pre ++ post)).failed
    ∧ (parseMultipleEmails v c s (pre ++ e :: post)).all_transactions
      = (parseMultipleEmails v c s (pre ++ post)).all_transactions := by
  have hp : parseTransactionEmail v c s e
      = ParseResult.notTransaction e.id "Email does not contain transaction information" := by
    unfold parseTransactionEmail
    rw [h]
  refine ⟨hp, ?_, ?_, ?_⟩
  · rw [parseMultipleEmails_eq, foldl_processResult]
    simp [hp, nonOf]
  · rw [parseMultipleEmails_eq, foldl_processResult,
      parseMultipleEmails_eq, foldl_processResult]
    simp [hp, failOf]
  · rw [parseMultipleEmails_eq, foldl_processResult,
      parseMultipleEmails_eq, foldl_processResult]
    simp [hp, txOf]

/-- Claim C3 (amended) witness: the concrete malformed message between
two well-formed ones. -/
theorem C3_malformed_as_data_witness :
    parseTransactionEmail (fun _ => true) (fun s => s) svcMixed emailBad
      = ParseResult.notTransaction emailBad.id
          "Email does not contain transaction information"
    ∧ emailBad.id ∈ (parseMultipleEmails (fun _ => true) (fun s => s) svcMixed
        ([emailA] ++ emailBad :: [emailA])).non_transaction_emails
    ∧ (parseMultipleEmails (fun _ => true) (fun s => s) svcMixed
        ([emailA] ++ emailBad :: [emailA])).failed
      = (parseMultipleEmails (fun _ => true) (fun s => s) svcMixed
          ([emailA] ++ [emailA])).failed
    ∧ (parseMultipleEmails (fun _ => true) (fun s => s) svcMixed
        ([emailA] ++ emailBad :: [emailA])).all_transactions
      = (parseMultipleEmails (fun _ => true) (fun s => s) svcMixed
          ([emailA] ++ [emailA])).all_transactions :=
  C3_malformed_as_data (fun _ => true) (fun s => s) svcMixed emailBad
    [emailA] [emailA] (by decide)

/-- Claim C7, evaluated at the failing input (₹2000.47 at Swiggy,
display currency CAD): `postProcessTransaction` retains the original
amount and currency, converts the amount to 32.44 CAD via the static
rate table and sets `display_currency` to CAD — but the persisted row
built by `saveTransactions` records `display_currency` from
`t.currency`, i.e. as the original currency INR, alongside the
CAD-converted amount; the claimed recording of the display currency
(CAD) does not happen. -/
theorem C7_display_currency_bug :
    (postProcessTransaction (fun s => s) guessINR emailBad).original_amount
        = some (JsNum.num (200047/100))
    ∧ (postProcessTransaction (fun s => s) guessINR emailBad).original_currency = some "INR"
    ∧ (postProcessTransaction (fun s => s) guessINR emailBad).amount
        = some (JsNum.num (811/25))
    ∧ (postProcessTransaction (fun s => s) guessINR emailBad).display_currency = some "CAD"
    ∧ (toRow "user-1" (postProcessTransaction (fun s => s) guessINR emailBad)).amount
        = (postProcessTransaction (fun s => s) guessINR emailBad).amount
    ∧ (toRow "user-1" (postProcessTransaction (fun s => s) guessINR emailBad)).original_amount
        = some (JsNum.num (200047/100))
    ∧ (toRow "user-1" (postProcessTransaction (fun s => s) guessINR emailBad)).original_currency
        = "INR"
    ∧ (toRow "user-1" (postProcessTransaction (fun s => s) guessINR emailBad)).display_currency
        = "INR"
    ∧ "INR" ≠ "CAD" := by
  have horig : (postProcessTransaction (fun s => s) guessINR emailBad).original_amount
      = some (JsNum.num (⟨200047, 100, by norm_num, by norm_num⟩ : ℚ)) := rfl
  have horigrow : (toRow "user-1"
        (postProcessTransaction (fun s => s) guessINR emailBad)).original_amount
      = some (JsNum.num (⟨200047, 100, by norm_num, by norm_num⟩ : ℚ)) := rfl
  have hamt : (postProcessTransaction (fun s => s) guessINR emailBad).amount
      = some (JsNum.num (round2 ((⟨200047, 100, by norm_num, by norm_num⟩ : ℚ)
          * (⟨3, 250, by norm_num, by norm_num⟩ : ℚ)
          / (⟨37, 50, by norm_num, by norm_num⟩ : ℚ)))) := rfl
  refine ⟨?_, by decide, ?_, by decide, rfl, ?_, by decide, by decide, by decide⟩
  · rw [horig]
    norm_num [Rat.mk'_eq_divInt, Rat.divInt_eq_div]
  · rw [hamt]
    norm_num [round2, Rat.mk'_eq_divInt, Rat.divInt_eq_div]
  · rw [horigrow]
    norm_num [Rat.mk'_eq_divInt, Rat.divInt_eq_div]

/-- Claim C5: when the fetch returns an empty list, the run answers
success with all statistics zero, the extractor is never invoked, no
persistence is attempted (the store is unchanged), and the sync log is
finalized as success with all-zero counters. -/
theorem C5_empty_fetch_short_circuit (inp : SyncInput) (userId : String)
    (hu : inp.userOk = true) (hlog : inp.logCreateOk = true)
    (hthrow : inp.fetchThrow = none) (hempty : inp.fetchResult = some []) :
    (runSync inp userId).response = SyncResponse.success emptySyncStats
    ∧ (runSync inp userId).extractorCalled = false
    ∧ (runSync inp userId).saveAttempted = false
    ∧ (runSync inp userId).store = inp.store
    ∧ (runSync inp userId).log = some (emptySuccessLog inp.endTime) := by
  unfold runSync
  rw [hu, hthrow, hempty]
  simp [hlog, emptySyncStats, emptySuccessLog]

/-- Claim C5 witness: the concrete empty-inbox environment. -/
theorem C5_empty_fetch_short_circuit_witness :
    inpC5.userOk = true ∧ inpC5.fetchResult = some []
    ∧ ((runSync inpC5 "u1").response = SyncResponse.success emptySyncStats
       ∧ (runSync inpC5 "u1").extractorCalled = false
       ∧ (runSync inpC5 "u1").saveAttempted = false
       ∧ (runSync inpC5 "u1").store = inpC5.store
       ∧ (runSync inpC5 "u1").log = some (emptySuccessLog inpC5.endTime)) :=
  ⟨rfl, rfl, C5_empty_fetch_short_circuit inpC5 "u1" rfl rfl rfl rfl⟩

/-- Claim C4: when an unhandled exception occurs during fetch, extract
or persist after the sync-log record was created, the handler updates
the record to status `failed` with the triggering error and a
completion timestamp, and only then surfaces the 500 error; and no run
ever leaves its log record in the `running` state. -/
theorem C4_failure_finalizes_log :
    (∀ (inp : SyncInput) (userId msg : String),
      inp.userOk = true → inp.logCreateOk = true →
      (inp.fetchThrow = some msg
        ∨ (inp.fetchThrow = none ∧ (inp.fetchResult.getD []).isEmpty = false
            ∧ inp.extractThrow = some msg)
        ∨ (inp.fetchThrow = none ∧ (inp.fetchResult.getD []).isEmpty = false
            ∧ inp.extractThrow = none ∧ inp.persistThrow = some msg)) →
      (runSync inp userId).log = some (failSyncLog msg inp.endTime {})
      ∧ (failSyncLog msg inp.endTime {}).status = "failed"
      ∧ (failSyncLog msg inp.endTime {}).errors = some [msg]
      ∧ (failSyncLog msg inp.endTime {}).completedAt = some inp.endTime
      ∧ (runSync inp userId).response = SyncResponse.serverError msg)
    ∧ (∀ (inp : SyncInput) (userId : String) (rec : SyncLogRecord),
        (runSync inp userId).log = some rec →
        rec.status = "success" ∨ rec.status = "failed") := by
  constructor
  · intro inp userId msg hu hlog hcase
    rcases hcase with hf | ⟨hf, hne, hex⟩ | ⟨hf, hne, hex, hper⟩
    · unfold runSync
      rw [hu, hf]
      simp [hlog, failSyncLog]
    · unfold runSync
      rw [hu, hf]
      simp [hlog, hne, hex, failSyncLog]
    · unfold runSync
      rw [hu, hf]
      simp [hlog, hne, hex, hper, failSyncLog]
  · intro inp userId rec h
    unfold runSync at h
    dsimp only at h
    cases hu : inp.userOk with
    | false => rw [hu] at h; simp at h
    | true =>
      rw [hu] at h
      simp only [Bool.not_true, Bool.false_eq_true, if_false] at h
      by_cases hlog : inp.logCreateOk
      case neg =>
        simp only [hlog, Bool.false_eq_true, if_false, Option.map_none] at h
        cases hfetch : inp.fetchThrow with
        | some m => rw [hfetch] at h; cases h
        | none =>
          rw [hfetch] at h
          by_cases he : (inp.fetchResult.getD []).isEmpty
          · simp only [he, if_true] at h; cases h
          · simp only [he, Bool.false_eq_true, if_false] at h
            cases hex : inp.extractThrow with
            | some m => rw [hex] at h; cases h
            | none =>
              rw [hex] at h
              cases hper : inp.persistThrow with
              | some m => rw [hper] at h; cases h
              | none => rw [hper] at h; cases h
      case pos =>
        simp only [hlog, if_true, Option.map_some] at h
        cases hfetch : inp.fetchThrow with
        | some m => rw [hfetch] at h; injection h with h; subst h; simp [failSyncLog]
        | none =>
          rw [hfetch] at h
          by_cases he : (inp.fetchResult.getD []).isEmpty
          · simp only [he, if_true] at h; injection h with h; subst h; simp
          · simp only [he, Bool.false_eq_true, if_false] at h
            cases hex : inp.extractThrow with
            | some m => rw [hex] at h; injection h with h; subst h; simp [failSyncLog]
            | none =>
              rw [hex] at h
              cases hper : inp.persistThrow with
              | some m => rw [hper] at h; injection h with h; subst h; simp [failSyncLog]
              | none => rw [hper] at h; injection h with h; subst h; simp

/-- Claim C4 witness: a concrete run whose fetch stage throws. -/
theorem C4_failure_finalizes_log_witness :
    inpC4.logCreateOk = true
    ∧ ((runSync inpC4 "u1").log
          = some (failSyncLog "Gmail API quota exceeded" inpC4.endTime {})
       ∧ (failSyncLog "Gmail API quota exceeded" inpC4.endTime {}).status = "failed"
       ∧ (failSyncLog "Gmail API quota exceeded" inpC4.endTime {}).errors
          = some ["Gmail API quota exceeded"]
       ∧ (failSyncLog "Gmail API quota exceeded" inpC4.endTime {}).completedAt
          = some inpC4.endTime
       ∧ (runSync inpC4 "u1").response
          = SyncResponse.serverError "Gmail API quota exceeded") :=
  ⟨rfl, C4_failure_finalizes_log.1 inpC4 "u1" "Gmail API quota exceeded" rfl rfl
    (Or.inl rfl)⟩

/-- Claim C1: every `saveTransactions` call returns counts with
`saved + duplicates = length(input)`, and consequently every successful
sync-run response reports
`transactionsSaved + duplicatesSkipped = transactionsFound` (on the
empty-inbox response `duplicatesSkipped` is absent and read as 0). -/
theorem C1_counts_invariant :
    (∀ (catLookup : String → Option String) (store : List Row) (userId : String)
        (ts : List Guess),
      (saveTransactions catLookup store userId ts).2.saved
        + (saveTransactions catLookup store userId ts).2.duplicates = ts.length)
    ∧ (∀ (inp : SyncInput) (userId : String) (stats : ResponseStats),
        (runSync inp userId).response = SyncResponse.success stats →
        stats.transactionsSaved + stats.duplicatesSkipped.getD 0
          = stats.transactionsFound) := by
  constructor
  · exact saveTransactions_counts
  · intro inp userId stats h
    unfold runSync at h
    dsimp only at h
    cases hu : inp.userOk with
    | false => rw [hu] at h; simp at h
    | true =>
      rw [hu] at h
      simp only [Bool.not_true, Bool.false_eq_true, if_false] at h
      cases hf : inp.fetchThrow with
      | some m => rw [hf] at h; simp at h
      | none =>
        rw [hf] at h
        by_cases he : (inp.fetchResult.getD []).isEmpty
        · simp only [he, if_true] at h
          injection h with h
          subst h
          simp
        · simp only [he, Bool.false_eq_true, if_false] at h
          cases hex : inp.extractThrow with
          | some m => rw [hex] at h; simp at h
          | none =>
            rw [hex] at h
            cases hper : inp.persistThrow with
            | some m => rw [hper] at h; simp at h
            | none =>
              rw [hper] at h
              injection h with h
              subst h
              dsimp only [Option.getD_some]
              by_cases hpos :
                0 < (parseMultipleEmails inp.isDateValid inp.clean inp.svc
                      (inp.fetchResult.getD [])).all_transactions.length
              · simp only [hpos, if_true]
                rw [parseMultipleEmails_total]
                exact saveTransactions_counts inp.catLookup inp.store userId _
              · simp only [hpos, if_false]
                rw [parseMultipleEmails_total]
                omega

/-- Claim C1 witness: a concrete successful run with one found and one
saved transaction. -/
theorem C1_counts_invariant_witness :
    (runSync inpC1 "u1").response = SyncResponse.success statsC1
    ∧ statsC1.transactionsSaved + statsC1.duplicatesSkipped.getD 0
        = statsC1.transactionsFound :=
  ⟨by decide, C1_counts_invariant.2 inpC1 "u1" statsC1 (by decide)⟩

/-- Claim C6: a guess with a missing, non-numeric, non-positive or
above-1,000,000 amount, an empty merchant, or an unparseable date is
rejected by validation; everything that reaches the batch's
`all_transactions` (the list handed to persistence) has a positive
in-range amount and enumeration-valid category and transaction type;
and a guess that passes the core checks is never rejected for its
category or transaction type — those are coerced to `other` / `debit`
respectively. -/
theorem C6_validation_policy :
    (∀ (f : String → Bool) (t : Guess),
      (t.amount = none ∨ t.amount = some JsNum.nan
        ∨ (∃ q : ℚ, t.amount = some (JsNum.num q) ∧ q ≤ 0)
        ∨ (∃ q : ℚ, t.amount = some (JsNum.num q) ∧ 1000000 < q)
        ∨ merchantMissing t.merchant = true
        ∨ dateOk f t.date = false) →
      validateTransaction f t = none)
    ∧ (∀ (v : String → Bool) (c : String → String) (s : Email → ServiceResult)
        (emails : List Email) (g : Guess),
        g ∈ (parseMultipleEmails v c s emails).all_transactions →
        (∃ q : ℚ, g.amount = some (JsNum.num q) ∧ 0 < q ∧ q ≤ 1000000)
          ∧ categoryOk g.category = true ∧ typeOk g.transaction_type = true)
    ∧ (∀ (f : String → Bool) (t : Guess),
        amountInvalid t.amount = false → amountTooLarge t.amount = false →
        merchantMissing t.merchant = false → dateOk f t.date = true →
        ∃ t', validateTransaction f t = some t'
          ∧ t'.amount = t.amount ∧ t'.merchant = t.merchant ∧ t'.date = t.date
          ∧ t'.category = (if categoryOk t.category then t.category else some "other")
          ∧ t'.transaction_type =
              (if typeOk t.transaction_type then t.transaction_type
               else some "debit")) := by
  refine ⟨?_, ?_, ?_⟩
  · intro f t hcond
    rcases hcond with h | h | ⟨q, hq, hle⟩ | ⟨q, hq, hgt⟩ | h | h
    · simp [validateTransaction, amountInvalid, h]
    · simp [validateTransaction, amountInvalid, h]
    · simp [validateTransaction, amountInvalid, hq, hle]
    · have h0 : ¬ q ≤ 0 := by linarith
      simp [validateTransaction, amountInvalid, amountTooLarge, hq, h0, hgt]
    · unfold validateTransaction
      cases h1 : amountInvalid t.amount <;> cases h2 : amountTooLarge t.amount <;>
        simp [h1, h2, h]
    · unfold validateTransaction
      cases h1 : amountInvalid t.amount <;> cases h2 : amountTooLarge t.amount <;>
        cases h3 : merchantMissing t.merchant <;> simp [h1, h2, h3, h]
  · intro v c s emails g hg
    rw [parseMultipleEmails_eq, foldl_processResult] at hg
    simp only [List.nil_append] at hg
    rw [List.mem_flatten] at hg
    obtain ⟨l, hl, hgl⟩ := hg
    rw [List.mem_map] at hl
    obtain ⟨r, hr, hlr⟩ := hl
    rw [List.mem_map] at hr
    obtain ⟨e0, _, hre⟩ := hr
    cases hparse : parseTransactionEmail v c s e0 with
    | notTransaction i m => rw [← hre, hparse] at hlr; rw [← hlr] at hgl; cases hgl
    | failed i m => rw [← hre, hparse] at hlr; rw [← hlr] at hgl; cases hgl
    | transactions gs =>
        rw [← hre, hparse] at hlr
        rw [← hlr] at hgl
        obtain ⟨_, hmem⟩ := parseTransactionEmail_transactions_inv v c s e0 gs hparse
        obtain ⟨t0, hv⟩ := hmem g hgl
        obtain ⟨hq, hcat, hty, _, _⟩ := validateTransaction_inv v _ g hv
        exact ⟨hq, hcat, hty⟩
  · intro f t h1 h2 h3 h4
    have hv : ∃ t', validateTransaction f t = some t' := by
      unfold validateTransaction
      simp [h1, h2, h3, h4]
    obtain ⟨t', ht⟩ := hv
    obtain ⟨ham, hmer, hdate, _, hcat, hty⟩ := validateTransaction_fields f t t' ht
    exact ⟨t', ht, ham, hmer, hdate, hcat, hty⟩

/-- Claim C6 witness: the concrete guess with category "stuff" and
transaction type "spend" passes validation with category coerced to
`other` and type coerced to `debit`. -/
theorem C6_validation_policy_witness :
    ∃ t', validateTransaction (fun _ => true) gBadCat = some t'
      ∧ t'.amount = gBadCat.amount ∧ t'.merchant = gBadCat.merchant
      ∧ t'.date = gBadCat.date
      ∧ t'.category = (if categoryOk gBadCat.category then gBadCat.category else some "other")
      ∧ t'.transaction_type =
          (if typeOk gBadCat.transaction_type then gBadCat.transaction_type
           else some "debit") :=
  C6_validation_policy.2.2 (fun _ => true) gBadCat (by decide) (by decide)
    (by decide) (by decide)

/-- Claim C10: every transaction extracted from one message carries that
message's id as its dedup key, and a single `saveTransactions` call on
those transactions (against a store with no row for that key) inserts
exactly one row — the remaining transactions of the message are counted
as duplicates, and the store ends up with exactly one row for the key. -/
theorem C10_dedup_key_per_message (v : String → Bool) (c : String → String)
    (s : Email → ServiceResult) (e : Email) (gs : List Guess)
    (catLookup : String → Option String) (store : List Row) (userId : String)
    (hparse : parseTransactionEmail v c s e = ParseResult.transactions gs)
    (hstore : store.any (fun r => keyConflict r.email_id (some e.id)) = false) :
    (∀ g ∈ gs, g.email_id = some e.id)
    ∧ (saveTransactions catLookup store userId gs).2.saved = 1
    ∧ (saveTransactions catLookup store userId gs).2.duplicates = gs.length - 1
    ∧ ((saveTransactions catLookup store userId gs).1.filter
        (fun r => keyConflict r.email_id (some e.id))).length = 1 := by
  obtain ⟨hne, hmem⟩ := parseTransactionEmail_transactions_inv v c s e gs hparse
  have hids : ∀ g ∈ gs, g.email_id = some e.id := by
    intro g hg
    obtain ⟨t0, hv⟩ := hmem g hg
    have hfields := validateTransaction_fields v _ g hv
    rw [hfields.2.2.2.1]
    exact postProcess_email_id c t0 e
  have hrowids : ∀ r ∈ (gs.map (toRow userId)).map (fillCategoryId catLookup gs),
      r.email_id = some e.id := by
    intro r hr
    rw [List.mem_map] at hr
    obtain ⟨r0, hr0mem, hr0⟩ := hr
    rw [List.mem_map] at hr0mem
    obtain ⟨g, hgmem, hg⟩ := hr0mem
    rw [← hr0, fillCategoryId_email_id, ← hg, toRow_email_id]
    exact hids g hgmem
  refine ⟨hids, ?_⟩
  cases hrows : (gs.map (toRow userId)).map (fillCategoryId catLookup gs) with
  | nil =>
      exfalso
      apply hne
      have := congrArg List.length hrows
      simp at this
      exact this
  | cons r1 rest =>
      have hup := upsertIgnore_same_key store r1 rest e.id
        (hrowids r1 (by rw [hrows]; exact List.mem_cons_self r1 rest))
        (fun x hx => hrowids x (by rw [hrows]; exact List.mem_cons_of_mem r1 hx))
        hstore
      have hlen : gs.length = rest.length + 1 := by
        have hh := congrArg List.length hrows
        simp at hh
        omega
      unfold saveTransactions
      rw [hrows]
      dsimp only
      rw [hup]
      refine ⟨by simp, ?_, ?_⟩
      · simp only [List.length_cons, List.length_nil]
        omega
      · rw [List.filter_append, filter_keyConflict_nil store e.id hstore]
        have hk : keyConflict r1.email_id (some e.id) = true := by
          rw [hrowids r1 (by rw [hrows]; exact List.mem_cons_self r1 rest)]
          simp [keyConflict]
        simp [hk]

/-- Claim C10 witness: one message extracting two transactions — both
carry the message id, one row is saved, the other is counted as a
duplicate. -/
theorem C10_dedup_key_per_message_witness :
    (∀ g ∈ [gA1meta, gA2meta], g.email_id = some emailA.id)
    ∧ (saveTransactions (fun _ => none) [] "u1" [gA1meta, gA2meta]).2.saved = 1
    ∧ (saveTransactions (fun _ => none) [] "u1" [gA1meta, gA2meta]).2.duplicates
        = [gA1meta, gA2meta].length - 1
    ∧ ((saveTransactions (fun _ => none) [] "u1" [gA1meta, gA2meta]).1.filter
        (fun r => keyConflict r.email_id (some emailA.id))).length = 1 :=
  C10_dedup_key_per_message (fun _ => true) (fun s => s) svcTwoA emailA
    [gA1meta, gA2meta] (fun _ => none) [] "u1" (by decide) (by decide)

end Spendwise
